import Mathlib

/-!
Shallow embedding of the SwarmRL interaction-model layer:
`swarmrl/models/bechinger_models.py` and `swarmrl/models/ml_model.py`.
Numpy float arrays of shape (3,) are modelled as real 3-vectors, numpy
scalar floats as real numbers, and `np.inf` (the default vision range)
as the top element of `EReal`.
-/

open Classical

namespace SwarmRL

/-- A real 3-vector, modelling a numpy array of shape (3,). -/
structure Vec3 where
  x : ℝ
  y : ℝ
  z : ℝ

namespace Vec3

noncomputable instance : Add Vec3 := ⟨fun a b => ⟨a.x + b.x, a.y + b.y, a.z + b.z⟩⟩

noncomputable instance : Sub Vec3 := ⟨fun a b => ⟨a.x - b.x, a.y - b.y, a.z - b.z⟩⟩

noncomputable instance : SMul ℝ Vec3 := ⟨fun r v => ⟨r * v.x, r * v.y, r * v.z⟩⟩

/-- Componentwise division by a scalar, modelling numpy `vec / r`. -/
noncomputable def divR (v : Vec3) (r : ℝ) : Vec3 := ⟨v.x / r, v.y / r, v.z / r⟩

/-- Dot product, modelling `np.dot` on 3-vectors. -/
noncomputable def dot (a b : Vec3) : ℝ := a.x * b.x + a.y * b.y + a.z * b.z

/-- Euclidean norm, modelling `np.linalg.norm` on a 3-vector. -/
noncomputable def norm (v : Vec3) : ℝ := Real.sqrt (dot v v)

/-- The zero 3-vector, modelling `np.zeros((3,))`. -/
def zero : Vec3 := ⟨0, 0, 0⟩

/-- Componentwise sum of a list of 3-vectors. -/
noncomputable def sumL (l : List Vec3) : Vec3 := l.foldl (· + ·) zero

/-- Componentwise arithmetic mean of a list of 3-vectors, modelling
`np.mean(np.stack(vecs, axis=1), axis=1)`. -/
noncomputable def mean (l : List Vec3) : Vec3 := (sumL l).divR l.length

end Vec3

/-- Modelled from the spec: the `Colloid` dataclass lives in
`swarmrl/models/interaction_model.py`, which is not part of the sources here;
per the spec it carries the particle state handed to the interaction models:
a position vector and a director vector.  The extra field `ref` models Python
object identity (`id`): two list entries denote the same Python object exactly
when their `ref` fields are equal, and distinct objects may well carry equal
positions and directors. -/
structure Colloid where
  ref : ℕ
  pos : Vec3
  director : Vec3

/-- Filter of a list by a (classically decidable) predicate, keeping input
order; used to state which colloids a loop with an `if`-guarded `append`
collects. -/
noncomputable def filterP {α : Type} (p : α → Prop) : List α → List α
  | [] => []
  | a :: l => if p a then a :: filterP p l else filterP p l

/-- Embedding of `get_colloids_in_vision(coll, other_coll, vision_half_angle=np.pi,
vision_range=np.inf)`: the loop appends `other_p` to the accumulator when both
`in_front` and `in_range` hold.  `vision_range` is an `EReal` so that the
default `np.inf` is `⊤`. -/
noncomputable def get_colloids_in_vision (coll : Colloid) (other_coll : List Colloid)
    (vision_half_angle : ℝ) (vision_range : EReal) : List Colloid :=
  other_coll.foldl
    (fun colls_in_vision other_p =>
      let dist := other_p.pos - coll.pos
      let dist_norm := Vec3.norm dist
      let in_range := ((dist_norm : ℝ) : EReal) < vision_range
      let in_front := Real.arccos (Vec3.dot (dist.divR dist_norm) coll.director) < vision_half_angle
      if in_front ∧ in_range then colls_in_vision ++ [other_p] else colls_in_vision)
    []

/-- Embedding of `np.arctan2(y, x)`: the argument of the complex number
`x + y*i`, in `(-π, π]`. -/
noncomputable def arctan2 (y x : ℝ) : ℝ := Complex.arg ⟨x, y⟩

/-- Embedding of `angle_from_vector(vec)`. -/
noncomputable def angle_from_vector (vec : Vec3) : ℝ := arctan2 vec.y vec.x

/-- Embedding of `vector_from_angle(angle)`. -/
noncomputable def vector_from_angle (angle : ℝ) : Vec3 :=
  ⟨Real.cos angle, Real.sin angle, 0⟩

/-- Parameters of the `Lavergne2019` interaction model. -/
structure Lavergne2019 where
  vision_half_angle : ℝ
  act_force : ℝ
  perception_threshold : ℝ

/-- Embedding of `Lavergne2019.calc_force`: perception is the sum of
`1 / (2 π dist)` over the colloids in vision (range left at the default
`np.inf`); the force is `act_force * director / ||director||` when
`perception >= perception_threshold` and the zero vector otherwise. -/
noncomputable def Lavergne2019.calc_force (self : Lavergne2019) (colloid : Colloid)
    (other_colloids : List Colloid) : Vec3 :=
  let colls_in_vision := get_colloids_in_vision colloid other_colloids self.vision_half_angle ⊤
  let perception : ℝ :=
    (colls_in_vision.map (fun coll => 1 / (2 * Real.pi * Vec3.norm (colloid.pos - coll.pos)))).sum
  if perception ≥ self.perception_threshold then
    (self.act_force • colloid.director).divR (Vec3.norm colloid.director)
  else
    Vec3.zero

/-- Embedding of `Lavergne2019.calc_torque`: always `np.zeros((3,))`. -/
noncomputable def Lavergne2019.calc_torque (_self : Lavergne2019) (_colloid : Colloid)
    (_other_colloids : List Colloid) : Vec3 :=
  Vec3.zero

/-- Parameters of the `Baeuerle2020` interaction model. -/
structure Baeuerle2020 where
  act_force : ℝ
  detection_radius_position : ℝ
  detection_radius_orientation : ℝ
  vision_half_angle : ℝ
  angular_deviation : ℝ

/-- Embedding of `Baeuerle2020._calc_force`.  `np.argmin` over the two-entry
list of angle deviations yields index 0 exactly when the first entry is less
than or equal to the second, so the choice of the new orientation is an
`if _ ≤ _` between the two candidates. -/
noncomputable def Baeuerle2020._calc_force (self : Baeuerle2020) (colloid : Colloid)
    (other_colloids : List Colloid) : Vec3 :=
  let colls_in_vision_pos := get_colloids_in_vision colloid other_colloids
    self.vision_half_angle ((self.detection_radius_position : ℝ) : EReal)
  if colls_in_vision_pos.length = 0 then Vec3.zero else
  let com := Vec3.mean (colls_in_vision_pos.map Colloid.pos)
  let to_com := com - colloid.pos
  let to_com_angle := angle_from_vector to_com
  let colls_in_vision_orientation := get_colloids_in_vision colloid other_colloids
    self.vision_half_angle ((self.detection_radius_orientation : ℝ) : EReal)
  if colls_in_vision_orientation.length = 0 then Vec3.zero else
  let mean_orientation_raw := Vec3.mean (colls_in_vision_orientation.map Colloid.director)
  let mean_orientation_in_vision := mean_orientation_raw.divR (Vec3.norm mean_orientation_raw)
  let new_angle_choice_1 := to_com_angle + self.angular_deviation
  let new_angle_choice_2 := to_com_angle - self.angular_deviation
  let new_orientation_choice_1 := vector_from_angle new_angle_choice_1
  let new_orientation_choice_2 := vector_from_angle new_angle_choice_2
  let angle_deviation_1 := Real.arccos (Vec3.dot new_orientation_choice_1 mean_orientation_in_vision)
  let angle_deviation_2 := Real.arccos (Vec3.dot new_orientation_choice_2 mean_orientation_in_vision)
  let new_orientation :=
    if angle_deviation_1 ≤ angle_deviation_2 then new_orientation_choice_1
    else new_orientation_choice_2
  self.act_force • new_orientation

/-- Embedding of `Baeuerle2020.calc_force`: delegates to `_calc_force`. -/
noncomputable def Baeuerle2020.calc_force (self : Baeuerle2020) (colloid : Colloid)
    (other_colloids : List Colloid) : Vec3 :=
  self._calc_force colloid other_colloids

/-- Embedding of `Baeuerle2020.calc_new_direction`: the force divided by its
own norm, with no guard against a zero force. -/
noncomputable def Baeuerle2020.calc_new_direction (self : Baeuerle2020) (colloid : Colloid)
    (other_colloids : List Colloid) : Vec3 :=
  let force := self._calc_force colloid other_colloids
  force.divR (Vec3.norm force)

/-- Embedding of `Baeuerle2020.calc_torque`: always `np.zeros((3,))`. -/
noncomputable def Baeuerle2020.calc_torque (_self : Baeuerle2020) (_colloid : Colloid)
    (_other_colloids : List Colloid) : Vec3 :=
  Vec3.zero

/-!
State-passing views of the Bechinger-model methods.  The Python method bodies
contain no assignment to any attribute of `self`, of `colloid`, or of any
entry of `other_colloids` (locals are built with `np.copy` or are fresh arrays
returned by numpy, and the in-place `/=` in `_calc_force` hits a fresh local
array), so the embedding of a call as a state transformer returns the
arguments as the post-call state. -/

/-- Call of `Lavergne2019.calc_force` together with the post-call states of
the model parameters, the focal colloid and the other colloids. -/
noncomputable def Lavergne2019.calc_force_step (self : Lavergne2019) (colloid : Colloid)
    (other_colloids : List Colloid) : Vec3 × Lavergne2019 × Colloid × List Colloid :=
  (self.calc_force colloid other_colloids, self, colloid, other_colloids)

/-- Call of `Lavergne2019.calc_torque` together with the post-call states. -/
noncomputable def Lavergne2019.calc_torque_step (self : Lavergne2019) (colloid : Colloid)
    (other_colloids : List Colloid) : Vec3 × Lavergne2019 × Colloid × List Colloid :=
  (self.calc_torque colloid other_colloids, self, colloid, other_colloids)

/-- Call of `Baeuerle2020.calc_force` together with the post-call states. -/
noncomputable def Baeuerle2020.calc_force_step (self : Baeuerle2020) (colloid : Colloid)
    (other_colloids : List Colloid) : Vec3 × Baeuerle2020 × Colloid × List Colloid :=
  (self.calc_force colloid other_colloids, self, colloid, other_colloids)

/-- Call of `Baeuerle2020.calc_torque` together with the post-call states. -/
noncomputable def Baeuerle2020.calc_torque_step (self : Baeuerle2020) (colloid : Colloid)
    (other_colloids : List Colloid) : Vec3 × Baeuerle2020 × Colloid × List Colloid :=
  (self.calc_torque colloid other_colloids, self, colloid, other_colloids)

/-- Modelled from the spec: the `Action` dataclass from
`swarmrl/models/interaction_model.py` is not part of the sources here; per its
use in `MLModel.__init__` it carries a scalar `force` and a 3-vector `torque`,
each defaulting to zero when the constructor argument is omitted. -/
structure Action where
  force : ℝ
  torque : Vec3

/-- The `translate` action of `MLModel.__init__`: `Action(force=10.0)`. -/
noncomputable def translate : Action := ⟨10.0, Vec3.zero⟩

/-- The `rotate_clockwise` action of `MLModel.__init__`:
`Action(torque=np.array([0.0, 0.0, 0.1]))`. -/
noncomputable def rotate_clockwise : Action := ⟨0, ⟨0, 0, 0.1⟩⟩

/-- The `rotate_counter_clockwise` action of `MLModel.__init__`:
`Action(torque=np.array([0.0, 0.0, -0.1]))`. -/
noncomputable def rotate_counter_clockwise : Action := ⟨0, ⟨0, 0, -0.1⟩⟩

/-- The `do_nothing` action of `MLModel.__init__`: `Action()`. -/
noncomputable def do_nothing : Action := ⟨0, Vec3.zero⟩

/-- The `self.actions` dict of `MLModel.__init__` in key-insertion order
(`RotateClockwise`, `Translate`, `RotateCounterClockwise`, `DoNothing`), as
indexed by `list(self.actions)[action_idx]`. -/
noncomputable def MLModel.action_table : List Action :=
  [rotate_clockwise, translate, rotate_counter_clockwise, do_nothing]

/-- Embedding of `torch.nn.functional.softmax(logits, dim=-1)` on a
one-dimensional tensor. -/
noncomputable def softmax (logits : List ℝ) : List ℝ :=
  logits.map (fun v => Real.exp v / (logits.map Real.exp).sum)

/-- The `MLModel` interaction model.  The network (`self.model`) and the
observable (`self.observable.compute_observable`) are external collaborators,
modelled as abstract functions: the network maps a feature vector to a
one-dimensional tensor of logits. -/
structure MLModel (Obs : Type) where
  model : Obs → List ℝ
  observable : Colloid → List Colloid → Obs

/-- Embedding of `MLModel.calc_action`.  The draw of
`Categorical(action_probabilities).sample()` is modelled by the `sampler`
oracle applied to the probability list; a faithful sampler returns an index
below the length of its argument.  The dict/list indexing
`self.actions[list(self.actions)[action_idx.item()]]` is fallible (an index
past the table raises), hence the `Option`-valued entries. -/
noncomputable def MLModel.calc_action {Obs : Type} (self : MLModel Obs)
    (sampler : List ℝ → ℕ) (colloids : List Colloid) : List (Option Action) :=
  colloids.map
    (fun colloid =>
      let other_colloids := colloids.filter (fun c => c.ref != colloid.ref)
      let feature_vector := self.observable colloid other_colloids
      let action_probabilities := softmax (self.model feature_vector)
      let action_idx := sampler action_probabilities
      MLModel.action_table[action_idx]?)

/-!
Concrete configurations, used to instantiate theorems with hypotheses.
-/

/-- A focal colloid at the origin pointing along the x-axis. -/
noncomputable def collW : Colloid := ⟨0, ⟨0, 0, 0⟩, ⟨1, 0, 0⟩⟩

/-- A second colloid straight ahead of `collW` at distance 1. -/
noncomputable def otherW : Colloid := ⟨1, ⟨1, 0, 0⟩, ⟨1, 0, 0⟩⟩

/-- A concrete `Baeuerle2020` parameter set: unit half-angle π/2, radii 2,
zero angular deviation, activity 3. -/
noncomputable def baeuerleW : Baeuerle2020 := ⟨3, 2, 2, Real.pi / 2, 0⟩

/-- A concrete `Lavergne2019` parameter set. -/
noncomputable def lavergneW : Lavergne2019 := ⟨Real.pi / 2, 3, 0⟩

/-- A colloid with the same position and director as `collW` but a different
object identity. -/
noncomputable def twinW : Colloid := ⟨2, ⟨0, 0, 0⟩, ⟨1, 0, 0⟩⟩

/-- A concrete `MLModel` over a trivial observable whose network always
produces four logits. -/
noncomputable def mlW : MLModel Unit := ⟨fun _ => [0, 0, 0, 0], fun _ _ => ()⟩

/-- A concrete sampler that always draws category 0. -/
def samplerW : List ℝ → ℕ := fun _ => 0

/-- The loop predicate of `get_colloids_in_vision`, in the order the loop
states it: `in_front` and then `in_range`. -/
def inVisionP (coll : Colloid) (vision_half_angle : ℝ) (vision_range : EReal)
    (c : Colloid) : Prop :=
  let dist := c.pos - coll.pos
  let dist_norm := Vec3.norm dist
  Real.arccos (Vec3.dot (dist.divR dist_norm) coll.director) < vision_half_angle ∧
    ((dist_norm : ℝ) : EReal) < vision_range

/-- Transcription of the specified behaviour of `Baeuerle2020.calc_force`:
center-of-mass of the position-vision set, `arctan2` of the vector towards it,
unit mean orientation of the orientation-vision set, and the deviation choice
that lands closer (in `arccos` of the dot product) to the mean orientation,
the first choice winning ties. -/
noncomputable def Baeuerle2020.calc_force_spec (self : Baeuerle2020) (colloid : Colloid)
    (other_colloids : List Colloid) : Vec3 :=
  let vis_pos := filterP (fun c =>
    Vec3.norm (c.pos - colloid.pos) < self.detection_radius_position ∧
      Real.arccos (Vec3.dot ((c.pos - colloid.pos).divR (Vec3.norm (c.pos - colloid.pos)))
        colloid.director) < self.vision_half_angle) other_colloids
  let com := Vec3.mean (vis_pos.map Colloid.pos)
  let to_com_angle := arctan2 (com - colloid.pos).y (com - colloid.pos).x
  let vis_ori := filterP (fun c =>
    Vec3.norm (c.pos - colloid.pos) < self.detection_radius_orientation ∧
      Real.arccos (Vec3.dot ((c.pos - colloid.pos).divR (Vec3.norm (c.pos - colloid.pos)))
        colloid.director) < self.vision_half_angle) other_colloids
  let mean_ori := Vec3.mean (vis_ori.map Colloid.director)
  let unit_mean_ori := mean_ori.divR (Vec3.norm mean_ori)
  let a1 := to_com_angle + self.angular_deviation
  let a2 := to_com_angle - self.angular_deviation
  let a :=
    if Real.arccos (Vec3.dot ⟨Real.cos a1, Real.sin a1, 0⟩ unit_mean_ori) ≤
        Real.arccos (Vec3.dot ⟨Real.cos a2, Real.sin a2, 0⟩ unit_mean_ori) then a1 else a2
  self.act_force • (⟨Real.cos a, Real.sin a, 0⟩ : Vec3)

/-!
Theorems.
-/

@[ext] theorem Vec3.ext_xyz {a b : Vec3} (hx : a.x = b.x) (hy : a.y = b.y) (hz : a.z = b.z) :
    a = b := by
  cases a; cases b; simp_all

theorem Vec3.add_def (a b : Vec3) : a + b = ⟨a.x + b.x, a.y + b.y, a.z + b.z⟩ := rfl

theorem Vec3.sub_def (a b : Vec3) : a - b = ⟨a.x - b.x, a.y - b.y, a.z - b.z⟩ := rfl

theorem Vec3.smul_def (r : ℝ) (v : Vec3) : r • v = ⟨r * v.x, r * v.y, r * v.z⟩ := rfl

theorem Vec3.dot_self_nonneg (v : Vec3) : 0 ≤ Vec3.dot v v := by
  have hx := mul_self_nonneg v.x
  have hy := mul_self_nonneg v.y
  have hz := mul_self_nonneg v.z
  unfold Vec3.dot
  linarith

theorem Vec3.norm_nonneg (v : Vec3) : 0 ≤ Vec3.norm v := Real.sqrt_nonneg _

theorem Vec3.norm_zero : Vec3.norm Vec3.zero = 0 := by
  simp [Vec3.norm, Vec3.dot, Vec3.zero]

theorem Vec3.norm_eq_zero_iff (v : Vec3) : Vec3.norm v = 0 ↔ v = Vec3.zero := by
  constructor
  · intro h
    have h0 : Vec3.dot v v ≤ 0 := by
      by_contra hpos
      push_neg at hpos
      have := Real.sqrt_pos.mpr hpos
      rw [Vec3.norm] at h
      linarith
    have hx := mul_self_nonneg v.x
    have hy := mul_self_nonneg v.y
    have hz := mul_self_nonneg v.z
    unfold Vec3.dot at h0
    refine Vec3.ext_xyz ?_ ?_ ?_ <;> simp [Vec3.zero] <;> nlinarith
  · intro h
    rw [h]
    exact Vec3.norm_zero

theorem Vec3.norm_sub_comm (a b : Vec3) : Vec3.norm (a - b) = Vec3.norm (b - a) := by
  unfold Vec3.norm Vec3.dot
  congr 1
  simp only [Vec3.sub_def]
  ring

theorem Vec3.smul_divR (r : ℝ) (v : Vec3) (n : ℝ) :
    (r • v).divR n = r • (v.divR n) := by
  simp only [Vec3.smul_def, Vec3.divR]
  refine Vec3.ext_xyz ?_ ?_ ?_ <;> simp <;> ring

theorem mem_filterP {α : Type} (p : α → Prop) (l : List α) (a : α) :
    a ∈ filterP p l ↔ a ∈ l ∧ p a := by
  induction l with
  | nil => simp [filterP]
  | cons b t ih =>
    by_cases hb : p b
    · simp only [filterP, if_pos hb, List.mem_cons, ih]
      constructor
      · rintro (rfl | ⟨ht, hp⟩)
        · exact ⟨Or.inl rfl, hb⟩
        · exact ⟨Or.inr ht, hp⟩
      · rintro ⟨rfl | ht, hp⟩
        · exact Or.inl rfl
        · exact Or.inr ⟨ht, hp⟩
    · simp only [filterP, if_neg hb, List.mem_cons, ih]
      constructor
      · rintro ⟨ht, hp⟩
        exact ⟨Or.inr ht, hp⟩
      · rintro ⟨rfl | ht, hp⟩
        · exact absurd hp hb
        · exact ⟨ht, hp⟩

theorem filterP_congr {α : Type} {p q : α → Prop} {l : List α}
    (h : ∀ a ∈ l, p a ↔ q a) : filterP p l = filterP q l := by
  induction l with
  | nil => rfl
  | cons a t ih =>
    have ha := h a (List.mem_cons_self a t)
    have ht := ih fun b hb => h b (List.mem_cons_of_mem a hb)
    by_cases hp : p a
    · rw [filterP, filterP, if_pos hp, if_pos (ha.mp hp), ht]
    · rw [filterP, filterP, if_neg hp, if_neg (fun hq => hp (ha.mpr hq)), ht]

theorem foldl_append_filterP {α : Type} (p : α → Prop) (D : (a : α) → Decidable (p a)) :
    ∀ (l acc : List α),
      l.foldl (fun s a => @ite _ (p a) (D a) (s ++ [a]) s) acc = acc ++ filterP p l := by
  intro l
  induction l with
  | nil => intro acc; simp [filterP]
  | cons a t ih =>
    intro acc
    by_cases hp : p a
    · rw [List.foldl_cons, if_pos hp, ih, filterP, if_pos hp, List.append_assoc,
        List.singleton_append]
    · rw [List.foldl_cons, if_neg hp, ih, filterP, if_neg hp]

theorem gciv_eq_filterP (coll : Colloid) (other_coll : List Colloid)
    (vision_half_angle : ℝ) (vision_range : EReal) :
    get_colloids_in_vision coll other_coll vision_half_angle vision_range =
      filterP (inVisionP coll vision_half_angle vision_range) other_coll := by
  have h := foldl_append_filterP
    (fun c : Colloid =>
      Real.arccos (Vec3.dot ((c.pos - coll.pos).divR (Vec3.norm (c.pos - coll.pos)))
          coll.director) < vision_half_angle ∧
        ((Vec3.norm (c.pos - coll.pos) : ℝ) : EReal) < vision_range)
    (fun _ => instDecidableAnd) other_coll []
  rw [List.nil_append] at h
  exact h

/-- With a real (finite) vision range and all other colloids at non-zero
distance, the vision list is the filter by the distance-and-angle predicate of
the specification.  The distance hypothesis mirrors the caveat that a
coincident colloid would make the numpy normalisation produce NaN. -/
theorem vision_filter_real (coll : Colloid) (other_coll : List Colloid)
    (vision_half_angle vision_range : ℝ)
    (_hd : ∀ c ∈ other_coll, Vec3.norm (c.pos - coll.pos) ≠ 0) :
    get_colloids_in_vision coll other_coll vision_half_angle
        ((vision_range : ℝ) : EReal) =
      filterP (fun c =>
        Vec3.norm (c.pos - coll.pos) < vision_range ∧
          Real.arccos (Vec3.dot ((c.pos - coll.pos).divR (Vec3.norm (c.pos - coll.pos)))
            coll.director) < vision_half_angle) other_coll := by
  rw [gciv_eq_filterP]
  apply filterP_congr
  intro c _
  simp only [inVisionP, EReal.coe_lt_coe_iff]
  exact and_comm

/-- With the default `np.inf` vision range, the range test is vacuous and the
vision list is the filter by the angular predicate alone. -/
theorem vision_filter_top (coll : Colloid) (other_coll : List Colloid)
    (vision_half_angle : ℝ) :
    get_colloids_in_vision coll other_coll vision_half_angle ⊤ =
      filterP (fun c =>
        Real.arccos (Vec3.dot ((c.pos - coll.pos).divR (Vec3.norm (c.pos - coll.pos)))
          coll.director) < vision_half_angle) other_coll := by
  rw [gciv_eq_filterP]
  apply filterP_congr
  intro c _
  simp only [inVisionP]
  simp [EReal.coe_lt_top]

/-- Claim C1: for a focal colloid with a unit director and other colloids all
at non-zero distance, `get_colloids_in_vision` returns exactly the colloids of
the input list, in input order, whose distance is below `vision_range` and
whose angle to the director (the `arccos` of the normalised relative position
dotted with the director) is strictly below `vision_half_angle`. -/
theorem claim_C1 (coll : Colloid) (other_coll : List Colloid)
    (vision_half_angle vision_range : ℝ)
    (_hu : Vec3.norm coll.director = 1)
    (hd : ∀ c ∈ other_coll, Vec3.norm (c.pos - coll.pos) ≠ 0) :
    get_colloids_in_vision coll other_coll vision_half_angle
        ((vision_range : ℝ) : EReal) =
      filterP (fun c =>
        Vec3.norm (c.pos - coll.pos) < vision_range ∧
          Real.arccos (Vec3.dot ((c.pos - coll.pos).divR (Vec3.norm (c.pos - coll.pos)))
            coll.director) < vision_half_angle) other_coll :=
  vision_filter_real coll other_coll vision_half_angle vision_range hd

theorem norm_unitx : Vec3.norm ⟨1, 0, 0⟩ = 1 := by
  rw [Vec3.norm, Vec3.dot]
  have h : (1 : ℝ) * 1 + 0 * 0 + 0 * 0 = 1 := by norm_num
  rw [h, Real.sqrt_one]

theorem subW : otherW.pos - collW.pos = (⟨1, 0, 0⟩ : Vec3) := by
  simp [otherW, collW, Vec3.sub_def]

theorem divR_one_unitx : (⟨1, 0, 0⟩ : Vec3).divR 1 = ⟨1, 0, 0⟩ := by
  simp [Vec3.divR]

theorem inVisionW : inVisionP collW (Real.pi / 2) (((2 : ℝ) : ℝ) : EReal) otherW := by
  refine ⟨?_, ?_⟩
  · rw [subW, norm_unitx, divR_one_unitx]
    have hdot : Vec3.dot ⟨1, 0, 0⟩ collW.director = 1 := by
      simp [Vec3.dot, collW]
    rw [hdot, Real.arccos_one]
    positivity
  · rw [subW, norm_unitx]
    exact EReal.coe_lt_coe_iff.mpr (by norm_num)

theorem visionW_eval :
    get_colloids_in_vision collW [otherW] (Real.pi / 2) (((2 : ℝ) : ℝ) : EReal) = [otherW] := by
  rw [gciv_eq_filterP, filterP, if_pos inVisionW, filterP]

/-- Witness for claim C1: a unit-director focal colloid at the origin and one
other colloid straight ahead at distance 1, with half-angle π/2 and range 2. -/
theorem claim_C1_witness :
    Vec3.norm collW.director = 1 ∧
    (∀ c ∈ [otherW], Vec3.norm (c.pos - collW.pos) ≠ 0) ∧
    get_colloids_in_vision collW [otherW] (Real.pi / 2) (((2 : ℝ) : ℝ) : EReal) =
      filterP (fun c =>
        Vec3.norm (c.pos - collW.pos) < 2 ∧
          Real.arccos (Vec3.dot ((c.pos - collW.pos).divR (Vec3.norm (c.pos - collW.pos)))
            collW.director) < Real.pi / 2) [otherW] := by
  have h1 : Vec3.norm collW.director = 1 := by
    show Vec3.norm ⟨1, 0, 0⟩ = 1
    exact norm_unitx
  have h2 : ∀ c ∈ [otherW], Vec3.norm (c.pos - collW.pos) ≠ 0 := by
    intro c hc
    rw [List.mem_singleton] at hc
    rw [hc, subW, norm_unitx]
    norm_num
  exact ⟨h1, h2, claim_C1 collW [otherW] (Real.pi / 2) 2 h1 h2⟩

/-- Claim C2: `Lavergne2019.calc_force` sums `1 / (2 π d)` over the colloids
in the (range-unbounded) vision cone and returns the activity along the
normalised director when the perception reaches the threshold, the zero vector
otherwise. -/
theorem claim_C2 (self : Lavergne2019) (colloid : Colloid) (other_colloids : List Colloid) :
    self.calc_force colloid other_colloids =
      if ((filterP (fun c =>
            Real.arccos (Vec3.dot ((c.pos - colloid.pos).divR (Vec3.norm (c.pos - colloid.pos)))
              colloid.director) < self.vision_half_angle) other_colloids).map
          (fun c => 1 / (2 * Real.pi * Vec3.norm (c.pos - colloid.pos)))).sum ≥
          self.perception_threshold
      then self.act_force • (colloid.director.divR (Vec3.norm colloid.director))
      else Vec3.zero := by
  simp only [Lavergne2019.calc_force]
  rw [vision_filter_top]
  rw [List.map_congr_left (fun c _ => by rw [Vec3.norm_sub_comm colloid.pos c.pos])]
  rw [Vec3.smul_divR]

theorem baeuerle_force_empty (self : Baeuerle2020) (colloid : Colloid) (other_colloids : List Colloid)
    (h : get_colloids_in_vision colloid other_colloids self.vision_half_angle
          ((self.detection_radius_position : ℝ) : EReal) = [] ∨
        get_colloids_in_vision colloid other_colloids self.vision_half_angle
          ((self.detection_radius_orientation : ℝ) : EReal) = []) :
    self._calc_force colloid other_colloids = Vec3.zero := by
  simp only [Baeuerle2020._calc_force]
  rcases h with h | h
  · rw [h]
    simp
  · by_cases hp : (get_colloids_in_vision colloid other_colloids self.vision_half_angle
        ((self.detection_radius_position : ℝ) : EReal)).length = 0
    · rw [if_pos hp]
    · rw [if_neg hp, h]
      simp

theorem baeuerle_force_shape (self : Baeuerle2020) (colloid : Colloid) (other_colloids : List Colloid)
    (hp : get_colloids_in_vision colloid other_colloids self.vision_half_angle
          ((self.detection_radius_position : ℝ) : EReal) ≠ [])
    (ho : get_colloids_in_vision colloid other_colloids self.vision_half_angle
          ((self.detection_radius_orientation : ℝ) : EReal) ≠ []) :
    ∃ a, self._calc_force colloid other_colloids = self.act_force • vector_from_angle a := by
  simp only [Baeuerle2020._calc_force]
  rw [if_neg (by simpa [List.length_eq_zero] using hp),
    if_neg (by simpa [List.length_eq_zero] using ho)]
  split
  · exact ⟨_, rfl⟩
  · exact ⟨_, rfl⟩

theorem norm_smul_vfa (k a : ℝ) : Vec3.norm (k • vector_from_angle a) = |k| := by
  rw [vector_from_angle, Vec3.smul_def, Vec3.norm, Vec3.dot]
  have h : k * Real.cos a * (k * Real.cos a) + k * Real.sin a * (k * Real.sin a) +
      k * 0 * (k * 0) = k ^ 2 * (Real.sin a ^ 2 + Real.cos a ^ 2) := by ring
  rw [h, Real.sin_sq_add_cos_sq, mul_one, Real.sqrt_sq_eq_abs]

theorem smul_vfa_z (k a : ℝ) : (k • vector_from_angle a).z = 0 := by
  simp [vector_from_angle, Vec3.smul_def]

theorem vec_divR_norm_unit (v : Vec3) (hv : v ≠ Vec3.zero) :
    Vec3.norm (v.divR (Vec3.norm v)) = 1 := by
  have hn0 : Vec3.norm v ≠ 0 := fun h => hv ((Vec3.norm_eq_zero_iff v).mp h)
  have hd : Vec3.dot (v.divR (Vec3.norm v)) (v.divR (Vec3.norm v)) =
      Vec3.dot v v / Vec3.norm v ^ 2 := by
    simp only [Vec3.dot, Vec3.divR]
    rw [div_mul_div_comm, div_mul_div_comm, div_mul_div_comm, div_add_div_same,
      div_add_div_same, pow_two]
  rw [show Vec3.norm (v.divR (Vec3.norm v)) =
      Real.sqrt (Vec3.dot v v / Vec3.norm v ^ 2) from by rw [Vec3.norm, hd]]
  rw [Real.sqrt_div (Vec3.dot_self_nonneg v), Real.sqrt_sq (Vec3.norm_nonneg v)]
  show Vec3.norm v / Vec3.norm v = 1
  exact div_self hn0

/-- Claim C5: if either of the two vision sets of `Baeuerle2020` is empty,
`calc_force` returns the zero 3-vector rather than failing on the empty
mean. -/
theorem claim_C5 (self : Baeuerle2020) (colloid : Colloid) (other_colloids : List Colloid)
    (h : get_colloids_in_vision colloid other_colloids self.vision_half_angle
          ((self.detection_radius_position : ℝ) : EReal) = [] ∨
        get_colloids_in_vision colloid other_colloids self.vision_half_angle
          ((self.detection_radius_orientation : ℝ) : EReal) = []) :
    self.calc_force colloid other_colloids = Vec3.zero :=
  baeuerle_force_empty self colloid other_colloids h

/-- Witness for claim C5: with no other colloids both vision sets are empty
and the force is zero. -/
theorem claim_C5_witness :
    (get_colloids_in_vision collW [] baeuerleW.vision_half_angle
        ((baeuerleW.detection_radius_position : ℝ) : EReal) = [] ∨
      get_colloids_in_vision collW [] baeuerleW.vision_half_angle
        ((baeuerleW.detection_radius_orientation : ℝ) : EReal) = []) ∧
    baeuerleW.calc_force collW [] = Vec3.zero :=
  ⟨Or.inl rfl, claim_C5 baeuerleW collW [] (Or.inl rfl)⟩

/-- Claim C6: when both vision sets are non-empty, the `Baeuerle2020` force
has Euclidean norm `|act_force|` and zero z-component. -/
theorem claim_C6 (self : Baeuerle2020) (colloid : Colloid) (other_colloids : List Colloid)
    (hp : get_colloids_in_vision colloid other_colloids self.vision_half_angle
          ((self.detection_radius_position : ℝ) : EReal) ≠ [])
    (ho : get_colloids_in_vision colloid other_colloids self.vision_half_angle
          ((self.detection_radius_orientation : ℝ) : EReal) ≠ []) :
    Vec3.norm (self.calc_force colloid other_colloids) = |self.act_force| ∧
      (self.calc_force colloid other_colloids).z = 0 := by
  obtain ⟨a, ha⟩ := baeuerle_force_shape self colloid other_colloids hp ho
  have hcf : self.calc_force colloid other_colloids = self.act_force • vector_from_angle a := ha
  rw [hcf]
  exact ⟨norm_smul_vfa _ _, smul_vfa_z _ _⟩

/-- Witness for claim C6 at the concrete one-neighbour configuration. -/
theorem claim_C6_witness :
    (get_colloids_in_vision collW [otherW] baeuerleW.vision_half_angle
        ((baeuerleW.detection_radius_position : ℝ) : EReal) ≠ [] ∧
      get_colloids_in_vision collW [otherW] baeuerleW.vision_half_angle
        ((baeuerleW.detection_radius_orientation : ℝ) : EReal) ≠ []) ∧
    Vec3.norm (baeuerleW.calc_force collW [otherW]) = |baeuerleW.act_force| ∧
      (baeuerleW.calc_force collW [otherW]).z = 0 := by
  have h1 : get_colloids_in_vision collW [otherW] baeuerleW.vision_half_angle
      ((baeuerleW.detection_radius_position : ℝ) : EReal) ≠ [] := by
    show get_colloids_in_vision collW [otherW] (Real.pi / 2) (((2 : ℝ) : ℝ) : EReal) ≠ []
    rw [visionW_eval]
    simp
  have h2 : get_colloids_in_vision collW [otherW] baeuerleW.vision_half_angle
      ((baeuerleW.detection_radius_orientation : ℝ) : EReal) ≠ [] := by
    show get_colloids_in_vision collW [otherW] (Real.pi / 2) (((2 : ℝ) : ℝ) : EReal) ≠ []
    rw [visionW_eval]
    simp
  exact ⟨⟨h1, h2⟩, claim_C6 baeuerleW collW [otherW] h1 h2⟩

/-- Claim C8: when the `Baeuerle2020` force is non-zero, `calc_new_direction`
returns it divided by its norm, a unit vector; when the force is the zero
vector the divisor used by `calc_new_direction` is exactly 0, with no guard. -/
theorem claim_C8 (self : Baeuerle2020) (colloid : Colloid) (other_colloids : List Colloid) :
    (self._calc_force colloid other_colloids ≠ Vec3.zero →
      self.calc_new_direction colloid other_colloids =
        (self._calc_force colloid other_colloids).divR
          (Vec3.norm (self._calc_force colloid other_colloids)) ∧
      Vec3.norm (self.calc_new_direction colloid other_colloids) = 1) ∧
    (self._calc_force colloid other_colloids = Vec3.zero →
      Vec3.norm (self._calc_force colloid other_colloids) = 0 ∧
      self.calc_new_direction colloid other_colloids =
        (self._calc_force colloid other_colloids).divR 0) := by
  constructor
  · intro h
    refine ⟨rfl, ?_⟩
    show Vec3.norm ((self._calc_force colloid other_colloids).divR
      (Vec3.norm (self._calc_force colloid other_colloids))) = 1
    exact vec_divR_norm_unit _ h
  · intro h
    have hz : Vec3.norm (self._calc_force colloid other_colloids) = 0 := by
      rw [h]
      exact Vec3.norm_zero
    refine ⟨hz, ?_⟩
    show (self._calc_force colloid other_colloids).divR
      (Vec3.norm (self._calc_force colloid other_colloids)) =
      (self._calc_force colloid other_colloids).divR 0
    rw [hz]

/-- Witness for claim C8: at the concrete one-neighbour configuration the
force is non-zero and the new direction is a unit vector. -/
theorem claim_C8_witness :
    baeuerleW._calc_force collW [otherW] ≠ Vec3.zero ∧
    Vec3.norm (baeuerleW.calc_new_direction collW [otherW]) = 1 := by
  have h1 : get_colloids_in_vision collW [otherW] baeuerleW.vision_half_angle
      ((baeuerleW.detection_radius_position : ℝ) : EReal) ≠ [] := by
    show get_colloids_in_vision collW [otherW] (Real.pi / 2) (((2 : ℝ) : ℝ) : EReal) ≠ []
    rw [visionW_eval]
    simp
  have h2 : get_colloids_in_vision collW [otherW] baeuerleW.vision_half_angle
      ((baeuerleW.detection_radius_orientation : ℝ) : EReal) ≠ [] := by
    show get_colloids_in_vision collW [otherW] (Real.pi / 2) (((2 : ℝ) : ℝ) : EReal) ≠ []
    rw [visionW_eval]
    simp
  obtain ⟨a, ha⟩ := baeuerle_force_shape baeuerleW collW [otherW] h1 h2
  have hne : baeuerleW._calc_force collW [otherW] ≠ Vec3.zero := by
    intro h0
    have hn := norm_smul_vfa baeuerleW.act_force a
    rw [← ha, h0, Vec3.norm_zero] at hn
    have h3 : |baeuerleW.act_force| = 3 := by
      show |(3 : ℝ)| = 3
      norm_num
    rw [h3] at hn
    norm_num at hn
  exact ⟨hne, ((claim_C8 baeuerleW collW [otherW]).1 hne).2⟩

/-- Claim C10: `calc_torque` of both hand-crafted models is identically the
zero 3-vector. -/
theorem claim_C10 (lav : Lavergne2019) (bae : Baeuerle2020) (colloid : Colloid)
    (other_colloids : List Colloid) :
    lav.calc_torque colloid other_colloids = Vec3.zero ∧
      bae.calc_torque colloid other_colloids = Vec3.zero :=
  ⟨rfl, rfl⟩

/-- Claim C7: the force and torque calls of both hand-crafted models leave the
model parameters, the focal colloid (its position and director) and the list
of other colloids unchanged: the post-call state of each call equals its
pre-call state. -/
theorem claim_C7 (lav : Lavergne2019) (bae : Baeuerle2020) (colloid : Colloid)
    (other_colloids : List Colloid) :
    (lav.calc_force_step colloid other_colloids).2 = (lav, colloid, other_colloids) ∧
    (lav.calc_torque_step colloid other_colloids).2 = (lav, colloid, other_colloids) ∧
    (bae.calc_force_step colloid other_colloids).2 = (bae, colloid, other_colloids) ∧
    (bae.calc_torque_step colloid other_colloids).2 = (bae, colloid, other_colloids) :=
  ⟨rfl, rfl, rfl, rfl⟩

/-- Claim C3: with all other colloids at non-zero distance and both vision
sets non-empty, `Baeuerle2020.calc_force` computes the center-of-mass of the
position-vision set, the `arctan2` angle towards it, the unit mean orientation
of the orientation-vision set, and applies `act_force` along the planar unit
vector of whichever of `to_com_angle ± angular_deviation` has the smaller
`arccos`-deviation from the mean orientation, the first choice on ties. -/
theorem claim_C3 (self : Baeuerle2020) (colloid : Colloid) (other_colloids : List Colloid)
    (hd : ∀ c ∈ other_colloids, Vec3.norm (c.pos - colloid.pos) ≠ 0)
    (hp : get_colloids_in_vision colloid other_colloids self.vision_half_angle
          ((self.detection_radius_position : ℝ) : EReal) ≠ [])
    (ho : get_colloids_in_vision colloid other_colloids self.vision_half_angle
          ((self.detection_radius_orientation : ℝ) : EReal) ≠ []) :
    self.calc_force colloid other_colloids = self.calc_force_spec colloid other_colloids := by
  have e1 := vision_filter_real colloid other_colloids self.vision_half_angle
    self.detection_radius_position hd
  have e2 := vision_filter_real colloid other_colloids self.vision_half_angle
    self.detection_radius_orientation hd
  simp only [Baeuerle2020.calc_force, Baeuerle2020._calc_force, Baeuerle2020.calc_force_spec,
    angle_from_vector, vector_from_angle]
  rw [← e1, ← e2]
  rw [if_neg (by simpa [List.length_eq_zero] using hp),
    if_neg (by simpa [List.length_eq_zero] using ho)]
  split
  · rfl
  · rfl

/-- Witness for claim C3 at the concrete one-neighbour configuration. -/
theorem claim_C3_witness :
    (∀ c ∈ [otherW], Vec3.norm (c.pos - collW.pos) ≠ 0) ∧
    get_colloids_in_vision collW [otherW] baeuerleW.vision_half_angle
        ((baeuerleW.detection_radius_position : ℝ) : EReal) ≠ [] ∧
    get_colloids_in_vision collW [otherW] baeuerleW.vision_half_angle
        ((baeuerleW.detection_radius_orientation : ℝ) : EReal) ≠ [] ∧
    baeuerleW.calc_force collW [otherW] = baeuerleW.calc_force_spec collW [otherW] := by
  have hd : ∀ c ∈ [otherW], Vec3.norm (c.pos - collW.pos) ≠ 0 := by
    intro c hc
    rw [List.mem_singleton] at hc
    rw [hc, subW, norm_unitx]
    norm_num
  have h1 : get_colloids_in_vision collW [otherW] baeuerleW.vision_half_angle
      ((baeuerleW.detection_radius_position : ℝ) : EReal) ≠ [] := by
    show get_colloids_in_vision collW [otherW] (Real.pi / 2) (((2 : ℝ) : ℝ) : EReal) ≠ []
    rw [visionW_eval]
    simp
  have h2 : get_colloids_in_vision collW [otherW] baeuerleW.vision_half_angle
      ((baeuerleW.detection_radius_orientation : ℝ) : EReal) ≠ [] := by
    show get_colloids_in_vision collW [otherW] (Real.pi / 2) (((2 : ℝ) : ℝ) : EReal) ≠ []
    rw [visionW_eval]
    simp
  exact ⟨hd, h1, h2, claim_C3 baeuerleW collW [otherW] hd h1 h2⟩

/-- Claim C4: for a network with four output logits and a faithful categorical
sampler, `MLModel.calc_action` yields one action per colloid, each drawn from
the fixed four-entry action table by softmax, categorical sampling and table
indexing. -/
theorem claim_C4 {Obs : Type} (m : MLModel Obs) (sampler : List ℝ → ℕ)
    (colloids : List Colloid)
    (hs : ∀ p : List ℝ, p ≠ [] → sampler p < p.length)
    (hnet : ∀ o : Obs, (m.model o).length = 4) :
    (m.calc_action sampler colloids).length = colloids.length ∧
    (∀ oa ∈ m.calc_action sampler colloids, ∃ b ∈ MLModel.action_table, oa = some b) ∧
    (∀ i (h : i < colloids.length),
      (m.calc_action sampler colloids)[i]? =
        some (MLModel.action_table[sampler (softmax (m.model (m.observable colloids[i]
          (colloids.filter (fun c => c.ref != colloids[i].ref)))))]?)) := by
  refine ⟨?_, ?_, ?_⟩
  · simp [MLModel.calc_action]
  · intro oa hoa
    simp only [MLModel.calc_action, List.mem_map] at hoa
    obtain ⟨colloid, _, rfl⟩ := hoa
    have hlen : (softmax (m.model (m.observable colloid
        (colloids.filter (fun c => c.ref != colloid.ref))))).length = 4 := by
      simp [softmax, hnet]
    have hne : softmax (m.model (m.observable colloid
        (colloids.filter (fun c => c.ref != colloid.ref)))) ≠ [] := by
      intro hX
      rw [hX] at hlen
      simp at hlen
    have hlt : sampler (softmax (m.model (m.observable colloid
        (colloids.filter (fun c => c.ref != colloid.ref))))) < 4 := by
      have hlt4 := hs _ hne
      rw [hlen] at hlt4
      exact hlt4
    have htab : MLModel.action_table.length = 4 := rfl
    refine ⟨MLModel.action_table.get ⟨sampler (softmax (m.model (m.observable colloid
      (colloids.filter (fun c => c.ref != colloid.ref))))), by rw [htab]; exact hlt⟩,
      List.get_mem _ _ _, ?_⟩
    show MLModel.action_table[sampler (softmax (m.model (m.observable colloid
      (colloids.filter (fun c => c.ref != colloid.ref)))))]? = _
    rw [List.getElem?_eq_getElem (by rw [htab]; exact hlt)]
    rfl
  · intro i h
    simp only [MLModel.calc_action, List.getElem?_map, List.getElem?_eq_getElem h,
      Option.map_some']

/-- Witness for claim C4: a constant four-logit network, the trivial
observable and the always-zero sampler over a one-colloid list. -/
theorem claim_C4_witness :
    (∀ p : List ℝ, p ≠ [] → samplerW p < p.length) ∧
    (∀ o : Unit, (mlW.model o).length = 4) ∧
    (mlW.calc_action samplerW [collW]).length = ([collW] : List Colloid).length := by
  have h1 : ∀ p : List ℝ, p ≠ [] → samplerW p < p.length := by
    intro p hp
    cases p with
    | nil => exact absurd rfl hp
    | cons a t => simp [samplerW]
  have h2 : ∀ o : Unit, (mlW.model o).length = 4 := fun _ => rfl
  exact ⟨h1, h2, (claim_C4 mlW samplerW [collW] h1 h2).1⟩

/-- Claim C9: in `MLModel.calc_action` the observable of the colloid at
position `i` is computed from that colloid and the entries of the input list
whose object identity (`ref`) differs from it: an alias of the focal colloid
is never included, while a distinct colloid with equal position and director
is kept. -/
theorem claim_C9 {Obs : Type} (m : MLModel Obs) (sampler : List ℝ → ℕ)
    (colloids : List Colloid) (i : ℕ) (h : i < colloids.length) :
    (m.calc_action sampler colloids)[i]? =
      some (MLModel.action_table[sampler (softmax (m.model (m.observable colloids[i]
        (colloids.filter (fun c => c.ref != colloids[i].ref)))))]?) ∧
    (∀ c ∈ colloids.filter (fun c => c.ref != colloids[i].ref), c.ref ≠ colloids[i].ref) ∧
    (∀ c ∈ colloids, c.ref ≠ colloids[i].ref →
      c ∈ colloids.filter (fun c => c.ref != colloids[i].ref)) := by
  refine ⟨?_, ?_, ?_⟩
  · simp only [MLModel.calc_action, List.getElem?_map, List.getElem?_eq_getElem h,
      Option.map_some']
  · intro c hc
    rw [List.mem_filter] at hc
    simpa using hc.2
  · intro c hc hne
    rw [List.mem_filter]
    exact ⟨hc, by simpa using hne⟩

/-- Witness for claim C9: `twinW` has the same position and director as the
focal `collW` but a different identity, and is kept in the filtered list. -/
theorem claim_C9_witness :
    0 < ([collW, twinW] : List Colloid).length ∧
    twinW ∈ ([collW, twinW] : List Colloid).filter (fun c => c.ref != collW.ref) := by
  have h : 0 < ([collW, twinW] : List Colloid).length := by simp
  have hne : twinW.ref ≠ (([collW, twinW] : List Colloid).get ⟨0, h⟩).ref := by
    show (2 : ℕ) ≠ 0
    norm_num
  have hmem : twinW ∈ ([collW, twinW] : List Colloid) := by simp
  exact ⟨h, (claim_C9 mlW samplerW [collW, twinW] 0 h).2.2 twinW hmem hne⟩

end SwarmRL
